import Mathlib

/-
Verification of the iwassistant dispatch/lifecycle core.

The embedding translates the command execution pipeline of
`GuildAssistant` (slash / text / voice paths), the `PlayableSpeechImpl`
state machine, the slash-command synchronization step, the lifecycle
guards of `GuildAssistant.setup`/`destroy` and `App.setup`/`destroy`,
and the `transcribe` wiring into pure Lean functions over explicit
state, producing a trace of observable effects.  Asynchronous code is
sequentialized: each `await` point is flattened into trace order.
-/

namespace Iwassistant

/-- Command results as used by the notify closures and the indicator map
`CommandResultEmoji` of the source. -/
inductive CommandResult where
  | success
  | failure
  | forbidden
deriving DecidableEq, Repr

/-- The `CommandResultEmoji` enum of the source. -/
def CommandResultEmoji : CommandResult → String
  | .success => "✅"
  | .failure => "⚠️"
  | .forbidden => "🚫"

/-- The result word used in the log templates of the source. -/
def CommandResult.word : CommandResult → String
  | .success => "success"
  | .failure => "failure"
  | .forbidden => "forbidden"

/-- Observable effects of the command execution pipeline, one constructor
per distinct call site shape in the source:
`beep` is `this.beep(...)`; `interactionReply` is `source.reply(string)`;
`interactionFollowUp` is `source.followUp(string)`; `followUpPayload` is
`source.followUp(new MessagePayload(...))`; `messageReact` is
`source.react(...)`; `messageReply` is `source.reply(options)` or
`message.reply(options)`; `voiceSend` is
`source.destination.send(mention + commandId + emoji)`;
`setTimer`/`clearTimer` are `setTimeout`/`clearTimeout`;
`executeCommand` marks entry into `command.execute(event)`; and the
three `log` constructors carry the result word of the log template. -/
inductive Effect where
  | beep (result : CommandResult)
  | interactionReply (content : String)
  | interactionFollowUp (content : String)
  | followUpPayload (content : String)
  | messageReact (emoji : String)
  | messageReply (content : String)
  | voiceSend (memberId : String) (commandId : String) (emoji : String)
  | setTimer
  | clearTimer
  | executeCommand
  | logInfo (result : String)
  | logWarn (result : String)
  | logError (result : String)
deriving DecidableEq, Repr

/-- Whether a string is one of the three result emoji. -/
def isResultEmoji (s : String) : Bool :=
  s = "✅" || s = "⚠️" || s = "🚫"

/-- A user-visible result indicator: a send whose content is one of the
three result emoji. -/
def Effect.isIndicator : Effect → Bool
  | .interactionReply c => isResultEmoji c
  | .interactionFollowUp c => isResultEmoji c
  | .messageReact e => isResultEmoji e
  | .voiceSend _ _ e => isResultEmoji e
  | _ => false

/-- An audible cue: a `this.beep(...)` call. -/
def Effect.isBeep : Effect → Bool
  | .beep _ => true
  | _ => false

/-- Number of user-visible result indicators in a trace. -/
def countIndicators : List Effect → Nat
  | [] => 0
  | e :: es => (if e.isIndicator then 1 else 0) + countIndicators es

/-- Number of audible cues in a trace. -/
def countBeeps : List Effect → Nat
  | [] => 0
  | e :: es => (if e.isBeep then 1 else 0) + countBeeps es

/-- Mutable state of a slash `CommandEvent`: the event's `notified` flag
and the interaction's `replied` flag. -/
structure SlashState where
  notified : Bool
  replied : Bool
deriving DecidableEq, Repr

/-- The `notify` closure of `#runCommandByInteraction`: a no-op when
already notified, otherwise sets `notified`, beeps, and sends the emoji
by `followUp` when the interaction already replied, else by `reply`. -/
def slashNotify (result : CommandResult) (s : SlashState) : SlashState × List Effect :=
  if s.notified then (s, [])
  else
    let emoji := CommandResultEmoji result
    (⟨true, true⟩,
      [Effect.beep result,
       if s.replied then Effect.interactionFollowUp emoji else Effect.interactionReply emoji])

/-- The `reply` closure of `#runCommandByInteraction`: awaits
`event.notify(result)` first, then follows up with the payload. -/
def slashReply (payload : String) (result : CommandResult) (s : SlashState) :
    SlashState × List Effect :=
  let n := slashNotify result s
  (⟨n.1.notified, true⟩, n.2 ++ [Effect.followUpPayload payload])

/-- Mutable state of a text `CommandEvent`: the `notified` flag. -/
structure TextState where
  notified : Bool
deriving DecidableEq, Repr

/-- The `notify` closure of `#runCommandByMessage`: a no-op when already
notified, otherwise sets `notified`, beeps, and reacts with the emoji. -/
def textNotify (result : CommandResult) (s : TextState) : TextState × List Effect :=
  if s.notified then (s, [])
  else (⟨true⟩, [Effect.beep result, Effect.messageReact (CommandResultEmoji result)])

/-- The `reply` closure of `#runCommandByMessage`: awaits
`event.notify(result)` first, then replies with the payload. -/
def textReply (payload : String) (result : CommandResult) (s : TextState) :
    TextState × List Effect :=
  let n := textNotify result s
  (n.1, n.2 ++ [Effect.messageReply payload])

/-- Mutable state of a voice `CommandEvent`: the `notified` flag and
whether the memoized notification `message` exists. -/
structure VoiceState where
  notified : Bool
  message : Bool
deriving DecidableEq, Repr

/-- The outer memoizing `notify` helper of `#runCommandByAudio`: returns
the memoized message if present, otherwise beeps and sends one new
message mentioning the member, annotated with the result emoji. -/
def voiceNotifyInner (memberId commandId : String) (result : CommandResult)
    (s : VoiceState) : VoiceState × List Effect :=
  if s.message then (s, [])
  else
    (⟨s.notified, true⟩,
      [Effect.beep result, Effect.voiceSend memberId commandId (CommandResultEmoji result)])

/-- The `event.notify` closure of `#runCommandByAudio`: a no-op when
already notified, otherwise sets `notified` and runs the memoizing
helper. -/
def voiceNotify (memberId commandId : String) (result : CommandResult)
    (s : VoiceState) : VoiceState × List Effect :=
  if s.notified then (s, [])
  else voiceNotifyInner memberId commandId result ⟨true, s.message⟩

/-- The `reply` closure of `#runCommandByAudio`: awaits
`event.notify(result)`, then the memoizing helper again (it returns the
memoized message), then replies to that message with the payload. -/
def voiceReply (memberId commandId : String) (payload : String) (result : CommandResult)
    (s : VoiceState) : VoiceState × List Effect :=
  let n := voiceNotify memberId commandId result s
  let m := voiceNotifyInner memberId commandId result n.1
  (m.1, n.2 ++ m.2 ++ [Effect.messageReply payload])

/-- Calls a command body may make on a slash event. -/
inductive SlashCall where
  | notify (result : CommandResult)
  | reply (payload : String) (result : CommandResult)
deriving DecidableEq, Repr

/-- Runs a sequence of slash event API calls. -/
def runSlashCalls : List SlashCall → SlashState → SlashState × List Effect
  | [], s => (s, [])
  | c :: cs, s =>
    let r := match c with
      | .notify result => slashNotify result s
      | .reply payload result => slashReply payload result s
    let rest := runSlashCalls cs r.1
    (rest.1, r.2 ++ rest.2)

/-- Calls a command body may make on a text event. -/
inductive TextCall where
  | notify (result : CommandResult)
  | reply (payload : String) (result : CommandResult)
deriving DecidableEq, Repr

/-- Runs a sequence of text event API calls. -/
def runTextCalls : List TextCall → TextState → TextState × List Effect
  | [], s => (s, [])
  | c :: cs, s =>
    let r := match c with
      | .notify result => textNotify result s
      | .reply payload result => textReply payload result s
    let rest := runTextCalls cs r.1
    (rest.1, r.2 ++ rest.2)

/-- Calls a command body may make on a voice event. -/
inductive VoiceCall where
  | notify (result : CommandResult)
  | reply (payload : String) (result : CommandResult)
deriving DecidableEq, Repr

/-- Runs a sequence of voice event API calls. -/
def runVoiceCalls (memberId commandId : String) :
    List VoiceCall → VoiceState → VoiceState × List Effect
  | [], s => (s, [])
  | c :: cs, s =>
    let r := match c with
      | .notify result => voiceNotify memberId commandId result s
      | .reply payload result => voiceReply memberId commandId payload result s
    let rest := runVoiceCalls memberId commandId cs r.1
    (rest.1, r.2 ++ rest.2)

/-- Outcome of `await command.execute(event)`: a truthy return, an
explicit `false` return, or a thrown/rejected failure. -/
inductive CmdOutcome where
  | retTrue
  | retFalse
  | throws
deriving DecidableEq, Repr

/-- The result computed by `(await command.execute(event)) === false ?
failure : success`. -/
def outcomeResult (o : CmdOutcome) : CommandResult :=
  if o = .retFalse then .failure else .success

/-- `#runCommandByInteraction`, with the command body abstracted as the
sequence of event API calls it performs before returning or throwing:
starts the acknowledgment timer, executes the body; on return clears the
timer, notifies the computed result and logs at info level; on throw the
catch replies the failure emoji only when the interaction has not
replied yet, beeps failure, and logs at error level (the timer is not
cleared on this path). -/
def runCommandByInteraction (body : List SlashCall) (outcome : CmdOutcome) :
    SlashState × List Effect :=
  let b := runSlashCalls body ⟨false, false⟩
  match outcome with
  | .throws =>
    let c : SlashState × List Effect :=
      if b.1.replied then (b.1, [])
      else (⟨b.1.notified, true⟩, [Effect.interactionReply (CommandResultEmoji .failure)])
    (c.1, Effect.setTimer :: Effect.executeCommand :: b.2 ++ c.2
      ++ [Effect.beep .failure, Effect.logError "error"])
  | o =>
    let result := outcomeResult o
    let n := slashNotify result b.1
    (n.1, Effect.setTimer :: Effect.executeCommand :: b.2
      ++ Effect.clearTimer :: n.2 ++ [Effect.logInfo result.word])

/-- `member.permissions.has(command.plugin.permissions[command.name] ?? [])`:
the member holds every declared required permission (vacuously true when
the command declares none). -/
def memberHas (memberPerms : List String) (cmdPerms : Option (List String)) : Bool :=
  (cmdPerms.getD []).all (fun p => memberPerms.contains p)

/-- `#runCommandByMessage`, with the body abstracted as its event API
calls: when the member lacks a required permission, reacts with the
forbidden emoji, beeps failure, warns, and never executes the body;
otherwise executes, notifies the computed result and logs at info level
on return, or reacts with the failure emoji, beeps failure and logs at
error level on throw. -/
def runCommandByMessage (memberPerms : List String) (cmdPerms : Option (List String))
    (body : List TextCall) (outcome : CmdOutcome) : TextState × List Effect :=
  if !memberHas memberPerms cmdPerms then
    (⟨false⟩, [Effect.messageReact (CommandResultEmoji .forbidden),
      Effect.beep .failure, Effect.logWarn "forbidden"])
  else
    let b := runTextCalls body ⟨false⟩
    match outcome with
    | .throws =>
      (b.1, Effect.executeCommand :: b.2
        ++ [Effect.messageReact (CommandResultEmoji .failure),
            Effect.beep .failure, Effect.logError "error"])
    | o =>
      let result := outcomeResult o
      let n := textNotify result b.1
      (n.1, Effect.executeCommand :: b.2 ++ n.2 ++ [Effect.logInfo result.word])

/-- `#runCommandByAudio`, with the body abstracted as its event API
calls: when the member lacks a required permission, beeps failure and
warns (no message is sent) and never executes the body; otherwise
executes, notifies the computed result and logs at info level on return,
or beeps failure and logs at error level on throw (no message is sent by
the catch). -/
def runCommandByAudio (memberPerms : List String) (cmdPerms : Option (List String))
    (memberId commandId : String) (body : List VoiceCall) (outcome : CmdOutcome) :
    VoiceState × List Effect :=
  if !memberHas memberPerms cmdPerms then
    (⟨false, false⟩, [Effect.beep .failure, Effect.logWarn "forbidden"])
  else
    let b := runVoiceCalls memberId commandId body ⟨false, false⟩
    match outcome with
    | .throws =>
      (b.1, Effect.executeCommand :: b.2 ++ [Effect.beep .failure, Effect.logError "error"])
    | o =>
      let result := outcomeResult o
      let n := voiceNotify memberId commandId result b.1
      (n.1, Effect.executeCommand :: b.2 ++ n.2 ++ [Effect.logInfo result.word])

/-- A TTS synthesis request (the `text` field is the one the core
inspects; voice parameters are opaque to the core). -/
structure TTSRequest where
  text : String
deriving DecidableEq, Repr

/-- An audio resource handle: either the substituted empty/silent
resource or one produced by a synthesis engine. -/
inductive AudioResource where
  | empty
  | synthesized (id : Nat)
deriving DecidableEq, Repr

/-- A TTS synthesis response: the request fields spread together with
the audio resource, as in the `{ ...request, resource }` literal. -/
structure TTSResponse where
  text : String
  resource : AudioResource
deriving DecidableEq, Repr

/-- Effects observable while a speech generator closure runs: the
`speak` hook firing and the call into `tts.generate(request)`. -/
inductive GenEffect where
  | hookSpeak
  | ttsGenerate
deriving DecidableEq, Repr

/-- The `ready` / `error` events a `PlayableSpeechImpl` emits. -/
inductive SpeechEvent where
  | ready
  | error (e : String)
deriving DecidableEq, Repr

/-- State of a `PlayableSpeechImpl`: the `response` field, the events
emitted so far in order, and a count of generator invocations. -/
structure SpeechState where
  response : Option TTSResponse
  emitted : List SpeechEvent
  genCalls : Nat
deriving DecidableEq, Repr

/-- A freshly constructed `PlayableSpeechImpl`. -/
def speechInit : SpeechState :=
  ⟨none, [], 0⟩

/-- `PlayableSpeechImpl.generate`: returns immediately when a response
already exists; otherwise invokes the bound generator (modelled as a
function of the invocation index, yielding its trace and either a
response or a thrown failure), on success stores the response and emits
`ready`, on failure emits `error`. -/
def generate (gen : Nat → List GenEffect × Except String TTSResponse)
    (s : SpeechState) : SpeechState × List GenEffect :=
  if s.response.isSome then (s, [])
  else
    let g := gen s.genCalls
    match g.2 with
    | .ok r => (⟨some r, s.emitted ++ [SpeechEvent.ready], s.genCalls + 1⟩, g.1)
    | .error e => (⟨s.response, s.emitted ++ [SpeechEvent.error e], s.genCalls + 1⟩, g.1)

/-- The empty audio resource substituted for degenerate input
(`this.createEmptyAudioResource()` of the `Assistant` base class). -/
def createEmptyAudioResource : AudioResource :=
  AudioResource.empty

/-- The generator closure built by `GuildAssistant.createSpeech`: fires
the `speak` hook, then, when the request text is empty, returns the
request spread with the empty audio resource without calling the
engine; otherwise delegates to `tts.generate(request)`. -/
def createSpeechGenerator (ttsGen : TTSRequest → Except String TTSResponse)
    (request : TTSRequest) : List GenEffect × Except String TTSResponse :=
  if request.text.length = 0 then
    ([GenEffect.hookSpeak], Except.ok ⟨request.text, createEmptyAudioResource⟩)
  else
    ([GenEffect.hookSpeak, GenEffect.ttsGenerate], ttsGen request)

/-- Modelled from the spec: the persistent key-value store interface
(`get(key)` / `set(key, value)`); the `Datastore` class itself is not
part of the given sources. -/
structure Datastore where
  entries : List (String × String)
deriving DecidableEq, Repr

/-- Store lookup. -/
def Datastore.get (d : Datastore) (k : String) : Option String :=
  (d.entries.find? (fun e => e.1 = k)).map (fun e => e.2)

/-- Store update. -/
def Datastore.set (d : Datastore) (k v : String) : Datastore :=
  ⟨(k, v) :: d.entries.filter (fun e => e.1 ≠ k)⟩

/-- The tail of `GuildAssistant.#updateSlashCommands` after the command
set has been serialized and hashed: when the hash stored under key
`slash` equals the computed hash, return without the remote registration
call; otherwise issue the registration call (the returned flag) and
persist the new hash. -/
def updateSlashCommands (hash : String) (d : Datastore) : Datastore × Bool :=
  if d.get "slash" = some hash then (d, false)
  else (d.set "slash" hash, true)

/-- The `Status` enum shared by `GuildAssistant` and `App`. -/
inductive Status where
  | unready
  | preparing
  | ready
  | destroying
  | destroyed
deriving DecidableEq, Repr

/-- The forward order of lifecycle statuses. -/
def Status.idx : Status → Nat
  | .unready => 0
  | .preparing => 1
  | .ready => 2
  | .destroying => 3
  | .destroyed => 4

/-- Subsystem setup/teardown steps of the two lifecycle owners, one
constructor per call in the source sequences. -/
inductive LifecycleEffect where
  | dataSetup
  | hookGuildAssistantSetup
  | attachPlugins
  | initAssistant
  | initEvents
  | updateSlash
  | emitReady
  | hookDestroy
  | dataDestroy
  | voiceDestroy
  | engineSetup
  | pluginSetup
  | discordSetup
  | homeSetup
  | discordDestroy
  | homeDestroy
deriving DecidableEq, Repr

/-- Result of one lifecycle method call: the final status, the statuses
assigned during the call in order, and the subsystem steps performed. -/
structure LifecycleRun where
  final : Status
  statuses : List Status
  effects : List LifecycleEffect
deriving DecidableEq, Repr

/-- `GuildAssistant.setup`: returns immediately unless `unready`;
otherwise moves to `preparing`, runs the setup sequence (slash command
synchronization only when the `slash` option is on), and moves to
`ready`. -/
def guildSetup (slash : Bool) (s : Status) : LifecycleRun :=
  if s = Status.unready then
    { final := Status.ready
      statuses := [Status.preparing, Status.ready]
      effects := [LifecycleEffect.dataSetup, LifecycleEffect.hookGuildAssistantSetup,
        LifecycleEffect.attachPlugins, LifecycleEffect.initAssistant,
        LifecycleEffect.initEvents]
        ++ (if slash then [LifecycleEffect.updateSlash] else [])
        ++ [LifecycleEffect.emitReady] }
  else { final := s, statuses := [], effects := [] }

/-- `GuildAssistant.destroy`: returns immediately unless `ready`;
otherwise moves to `destroying`, runs the teardown sequence, and moves
to `destroyed`. -/
def guildDestroy (s : Status) : LifecycleRun :=
  if s = Status.ready then
    { final := Status.destroyed
      statuses := [Status.destroying, Status.destroyed]
      effects := [LifecycleEffect.hookDestroy, LifecycleEffect.dataDestroy,
        LifecycleEffect.voiceDestroy] }
  else { final := s, statuses := [], effects := [] }

/-- `App.setup`: returns immediately unless `unready`; otherwise moves
to `preparing`, runs the setup sequence, and moves to `ready`. -/
def appSetup (s : Status) : LifecycleRun :=
  if s = Status.unready then
    { final := Status.ready
      statuses := [Status.preparing, Status.ready]
      effects := [LifecycleEffect.engineSetup, LifecycleEffect.dataSetup,
        LifecycleEffect.pluginSetup, LifecycleEffect.attachPlugins,
        LifecycleEffect.discordSetup, LifecycleEffect.homeSetup,
        LifecycleEffect.emitReady] }
  else { final := s, statuses := [], effects := [] }

/-- `App.destroy`: returns immediately unless `ready`; otherwise moves
to `destroying`, runs the teardown sequence, and moves to `destroyed`. -/
def appDestroy (s : Status) : LifecycleRun :=
  if s = Status.ready then
    { final := Status.destroyed
      statuses := [Status.destroying, Status.destroyed]
      effects := [LifecycleEffect.hookDestroy, LifecycleEffect.discordDestroy,
        LifecycleEffect.homeDestroy, LifecycleEffect.dataDestroy] }
  else { final := s, statuses := [], effects := [] }

/-- Observable steps of a transcription request: `installPrepare` is the
assignment `options.request.audio.prepare = ...`, `submitToEngine` is
the entry into `stt.transcribe(options.request)`, `hookTranscribe` is
the `transcribe` hook firing (inside the installed prepare callback),
and `consumeAudio` is the engine reading the audio resource. -/
inductive TranscribeEffect where
  | installPrepare
  | submitToEngine
  | hookTranscribe
  | consumeAudio
deriving DecidableEq, Repr

/-- Modelled from the spec: the selected STT engine (engines are not
part of the given sources); on a transcription call it invokes the
installed preparation step, then consumes the audio resource. -/
def engineTranscribe (prepare : List TranscribeEffect) : List TranscribeEffect :=
  prepare ++ [TranscribeEffect.consumeAudio]

/-- `GuildAssistant.transcribe`: installs the `transcribe` hook as the
audio's prepare callback, then submits the request to the selected STT
engine, whose run invokes the prepare callback before consuming the
audio. -/
def transcribeTrace : List TranscribeEffect :=
  TranscribeEffect.installPrepare :: TranscribeEffect.submitToEngine
    :: engineTranscribe [TranscribeEffect.hookTranscribe]

/-- A speech generator that always rejects. -/
def genFail : Nat → List GenEffect × Except String TTSResponse :=
  fun _ => ([], Except.error "boom")

/-- A speech generator that always succeeds with a fixed response. -/
def genOk : Nat → List GenEffect × Except String TTSResponse :=
  fun _ => ([], Except.ok ⟨"hi", AudioResource.synthesized 0⟩)

/-- A TTS engine stub that always succeeds with a fixed response. -/
def ttsOk : TTSRequest → Except String TTSResponse :=
  fun req => Except.ok ⟨req.text, AudioResource.synthesized 1⟩

/-- Effects an event API call (notify/reply) can produce: beeps and
channel sends, never logs or timer operations. -/
def Effect.isEventApi : Effect → Bool
  | .beep _ => true
  | .interactionReply _ => true
  | .interactionFollowUp _ => true
  | .followUpPayload _ => true
  | .messageReact _ => true
  | .messageReply _ => true
  | .voiceSend _ _ _ => true
  | _ => false

theorem slashNotify_eventApi (r : CommandResult) (s : SlashState) :
    ∀ e ∈ (slashNotify r s).2, e.isEventApi = true := by
  intro e he
  rcases s with ⟨n, rep⟩
  cases n <;> cases rep <;>
    simp [slashNotify, Effect.isEventApi] at he ⊢ <;>
    rcases he with h | h <;> subst h <;> rfl

theorem runSlashCalls_eventApi (cs : List SlashCall) (s : SlashState) :
    ∀ e ∈ (runSlashCalls cs s).2, e.isEventApi = true := by
  induction cs generalizing s with
  | nil => intro e he; simp [runSlashCalls] at he
  | cons ch ct ih =>
    intro e he
    cases ch with
    | notify r =>
      simp only [runSlashCalls, List.mem_append] at he
      rcases he with h | h
      · exact slashNotify_eventApi r s e h
      · exact ih _ e h
    | reply p r =>
      simp only [runSlashCalls, slashReply, List.mem_append, List.mem_cons,
        List.mem_singleton, List.cons_append, List.nil_append, List.singleton_append] at he
      rcases he with (h2 | h2) | h
      · exact slashNotify_eventApi r s e h2
      · rcases h2 with h2 | h2
        · subst h2; rfl
        · exact absurd h2 (List.not_mem_nil e)
      · exact ih _ e h

theorem textNotify_eventApi (r : CommandResult) (s : TextState) :
    ∀ e ∈ (textNotify r s).2, e.isEventApi = true := by
  intro e he
  rcases s with ⟨n⟩
  cases n <;>
    simp [textNotify, Effect.isEventApi] at he ⊢ <;>
    rcases he with h | h <;> subst h <;> rfl

theorem runTextCalls_eventApi (cs : List TextCall) (s : TextState) :
    ∀ e ∈ (runTextCalls cs s).2, e.isEventApi = true := by
  induction cs generalizing s with
  | nil => intro e he; simp [runTextCalls] at he
  | cons ch ct ih =>
    intro e he
    cases ch with
    | notify r =>
      simp only [runTextCalls, List.mem_append] at he
      rcases he with h | h
      · exact textNotify_eventApi r s e h
      · exact ih _ e h
    | reply p r =>
      simp only [runTextCalls, textReply, List.mem_append, List.mem_cons,
        List.mem_singleton, List.cons_append, List.nil_append, List.singleton_append] at he
      rcases he with (h2 | h2) | h
      · exact textNotify_eventApi r s e h2
      · rcases h2 with h2 | h2
        · subst h2; rfl
        · exact absurd h2 (List.not_mem_nil e)
      · exact ih _ e h

theorem voiceNotifyInner_eventApi (m c : String) (r : CommandResult) (s : VoiceState) :
    ∀ e ∈ (voiceNotifyInner m c r s).2, e.isEventApi = true := by
  intro e he
  rcases s with ⟨n, msg⟩
  cases msg <;>
    simp [voiceNotifyInner, Effect.isEventApi] at he ⊢ <;>
    rcases he with h | h <;> subst h <;> rfl

theorem voiceNotify_eventApi (m c : String) (r : CommandResult) (s : VoiceState) :
    ∀ e ∈ (voiceNotify m c r s).2, e.isEventApi = true := by
  intro e he
  rcases s with ⟨n, msg⟩
  cases n with
  | false => exact voiceNotifyInner_eventApi m c r _ e (by simpa [voiceNotify] using he)
  | true => simp [voiceNotify] at he

theorem runVoiceCalls_eventApi (m c : String) (cs : List VoiceCall) (s : VoiceState) :
    ∀ e ∈ (runVoiceCalls m c cs s).2, e.isEventApi = true := by
  induction cs generalizing s with
  | nil => intro e he; simp [runVoiceCalls] at he
  | cons ch ct ih =>
    intro e he
    cases ch with
    | notify r =>
      simp only [runVoiceCalls, List.mem_append] at he
      rcases he with h | h
      · exact voiceNotify_eventApi m c r s e h
      · exact ih _ e h
    | reply p r =>
      simp only [runVoiceCalls, voiceReply, List.mem_append, List.mem_cons,
        List.mem_singleton, List.cons_append, List.nil_append, List.singleton_append] at he
      rcases he with ((h3 | h3) | h2) | h
      · exact voiceNotify_eventApi m c r s e h3
      · exact voiceNotifyInner_eventApi m c r _ e h3
      · rcases h2 with h2 | h2
        · subst h2; rfl
        · exact absurd h2 (List.not_mem_nil e)
      · exact ih _ e h

/-- The voice event invariant: the `notified` flag and the memoized
message always agree on every state reachable through the event API. -/
theorem runVoiceCalls_notified_eq_message (m c : String) (cs : List VoiceCall) :
    ∀ s : VoiceState, s.notified = s.message →
      (runVoiceCalls m c cs s).1.notified = (runVoiceCalls m c cs s).1.message := by
  induction cs with
  | nil => intro s h; simpa [runVoiceCalls] using h
  | cons ch ct ih =>
    intro s h
    rcases s with ⟨n, msg⟩
    simp only at h
    subst h
    cases ch with
    | notify r =>
      cases n <;>
        · simp only [runVoiceCalls, voiceNotify, voiceNotifyInner]
          exact ih _ (by simp)
    | reply p r =>
      cases n <;>
        · simp only [runVoiceCalls, voiceReply, voiceNotify, voiceNotifyInner]
          exact ih _ (by simp)

/-- C1: for every CommandEvent instance on the slash, text and voice
paths, the first call to `notify` produces exactly one user-visible
result indicator and one audible cue, sets the `notified` flag, and
every subsequent call to `notify` on the same instance is a no-op with
no further effects. -/
theorem notify_at_most_once (replied : Bool) (r1 r2 : CommandResult) (m c : String) :
    (countIndicators (slashNotify r1 ⟨false, replied⟩).2 = 1
      ∧ countBeeps (slashNotify r1 ⟨false, replied⟩).2 = 1
      ∧ (slashNotify r1 ⟨false, replied⟩).1.notified = true
      ∧ slashNotify r2 (slashNotify r1 ⟨false, replied⟩).1
          = ((slashNotify r1 ⟨false, replied⟩).1, []))
    ∧ (countIndicators (textNotify r1 ⟨false⟩).2 = 1
      ∧ countBeeps (textNotify r1 ⟨false⟩).2 = 1
      ∧ (textNotify r1 ⟨false⟩).1.notified = true
      ∧ textNotify r2 (textNotify r1 ⟨false⟩).1 = ((textNotify r1 ⟨false⟩).1, []))
    ∧ (countIndicators (voiceNotify m c r1 ⟨false, false⟩).2 = 1
      ∧ countBeeps (voiceNotify m c r1 ⟨false, false⟩).2 = 1
      ∧ (voiceNotify m c r1 ⟨false, false⟩).1.notified = true
      ∧ voiceNotify m c r2 (voiceNotify m c r1 ⟨false, false⟩).1
          = ((voiceNotify m c r1 ⟨false, false⟩).1, [])) := by
  cases replied <;> cases r1 <;> cases r2 <;>
    simp [slashNotify, textNotify, voiceNotify, voiceNotifyInner, countIndicators,
      countBeeps, Effect.isIndicator, Effect.isBeep, isResultEmoji, CommandResultEmoji]

theorem countIndicators_append (l1 l2 : List Effect) :
    countIndicators (l1 ++ l2) = countIndicators l1 + countIndicators l2 := by
  induction l1 with
  | nil => simp [countIndicators]
  | cons e es ih => simp [countIndicators, ih]; omega

theorem not_mem_of_not_eventApi {e : Effect} {l : List Effect}
    (hl : ∀ x ∈ l, x.isEventApi = true) (he : e.isEventApi = false) : e ∉ l := by
  intro hm
  rw [hl e hm] at he
  exact Bool.noConfusion he

theorem voiceState_eq_of_inv (s : VoiceState) (h1 : s.notified = s.message) :
    s = ⟨s.notified, s.notified⟩ := by
  rcases s with ⟨n, msg⟩
  simp only at h1
  simp [h1]

/-- C10: on all three guild paths, `reply(payload, result)` performs
`notify(result)` before sending the reply payload: after any reply the
event's `notified` flag is true, a reply on a fresh (un-notified) event
produces exactly one result indicator, and a reply on an
already-notified event produces no further indicator. -/
theorem reply_notifies_first (payload : String) (r : CommandResult) (m c : String)
    (sS1 sS2 : SlashState) (sT1 sT2 : TextState) (cs1 cs2 : List VoiceCall)
    (hS1 : sS1.notified = true) (hS2 : sS2.notified = false)
    (hT1 : sT1.notified = true) (hT2 : sT2.notified = false)
    (hV1 : (runVoiceCalls m c cs1 ⟨false, false⟩).1.notified = true)
    (hV2 : (runVoiceCalls m c cs2 ⟨false, false⟩).1.notified = false) :
    ((slashReply payload r sS1).1.notified = true
      ∧ (slashReply payload r sS2).1.notified = true
      ∧ (slashReply payload r sS2).2
          = (slashNotify r sS2).2 ++ [Effect.followUpPayload payload]
      ∧ countIndicators (slashReply payload r sS1).2 = 0
      ∧ countIndicators (slashReply payload r sS2).2 = 1)
    ∧ ((textReply payload r sT1).1.notified = true
      ∧ (textReply payload r sT2).1.notified = true
      ∧ (textReply payload r sT2).2
          = (textNotify r sT2).2 ++ [Effect.messageReply payload]
      ∧ countIndicators (textReply payload r sT1).2 = 0
      ∧ countIndicators (textReply payload r sT2).2 = 1)
    ∧ ((voiceReply m c payload r (runVoiceCalls m c cs1 ⟨false, false⟩).1).1.notified = true
      ∧ (voiceReply m c payload r (runVoiceCalls m c cs2 ⟨false, false⟩).1).1.notified = true
      ∧ (voiceReply m c payload r (runVoiceCalls m c cs2 ⟨false, false⟩).1).2
          = (voiceNotify m c r (runVoiceCalls m c cs2 ⟨false, false⟩).1).2
            ++ [Effect.messageReply payload]
      ∧ countIndicators
          (voiceReply m c payload r (runVoiceCalls m c cs1 ⟨false, false⟩).1).2 = 0
      ∧ countIndicators
          (voiceReply m c payload r (runVoiceCalls m c cs2 ⟨false, false⟩).1).2 = 1) := by
  have e1 : (runVoiceCalls m c cs1 ⟨false, false⟩).1 = ⟨true, true⟩ := by
    have h := voiceState_eq_of_inv _ (runVoiceCalls_notified_eq_message m c cs1 ⟨false, false⟩ rfl)
    rw [hV1] at h
    exact h
  have e2 : (runVoiceCalls m c cs2 ⟨false, false⟩).1 = ⟨false, false⟩ := by
    have h := voiceState_eq_of_inv _ (runVoiceCalls_notified_eq_message m c cs2 ⟨false, false⟩ rfl)
    rw [hV2] at h
    exact h
  rw [e1, e2]
  rcases sS1 with ⟨nS1, repS1⟩
  rcases sS2 with ⟨nS2, repS2⟩
  rcases sT1 with ⟨nT1⟩
  rcases sT2 with ⟨nT2⟩
  simp only at hS1 hS2 hT1 hT2
  subst hS1; subst hS2; subst hT1; subst hT2
  cases repS1 <;> cases repS2 <;> cases r <;>
    simp [slashReply, slashNotify, textReply, textNotify, voiceReply, voiceNotify,
      voiceNotifyInner, countIndicators, Effect.isIndicator, isResultEmoji, CommandResultEmoji]

/-- C10 witness. -/
theorem reply_notifies_first_witness :
    (slashReply "ok" CommandResult.success ⟨true, true⟩).1.notified = true
    ∧ countIndicators
        (voiceReply "m1" "cmd" "ok" CommandResult.success
          (runVoiceCalls "m1" "cmd" [] ⟨false, false⟩).1).2 = 1 := by
  have h := reply_notifies_first "ok" CommandResult.success "m1" "cmd"
    ⟨true, true⟩ ⟨false, false⟩ ⟨true⟩ ⟨false⟩
    [VoiceCall.notify CommandResult.success] []
    rfl rfl rfl rfl (by decide) (by decide)
  exact ⟨h.1.1, h.2.2.2.2.2.2⟩

/-- C2 counterexample: a voice command whose body throws produces no
user-visible failure indicator at all — the catch handler only beeps and
logs at error level — refuting the claim that on every path the user
receives the failure emoji. -/
theorem voice_throw_no_failure_emoji :
    countIndicators (runCommandByAudio [] none "m1" "cmd" [] CmdOutcome.throws).2 = 0
    ∧ Effect.logError "error" ∈ (runCommandByAudio [] none "m1" "cmd" [] CmdOutcome.throws).2
    ∧ Effect.beep CommandResult.failure
        ∈ (runCommandByAudio [] none "m1" "cmd" [] CmdOutcome.throws).2 := by
  decide

/-- C2 amended: when the command body throws, the failure is always
logged at error level (distinctly from a command-reported failure,
logged at info level) and a failure beep always fires; the failure emoji
reaches the user only on the text path unconditionally, on the slash
path only when the interaction has not been replied to yet, and on the
voice path never (the catch adds no indicator). -/
theorem command_throw_reporting (bodyS bodyS2 bodyS3 : List SlashCall) (bodyT : List TextCall)
    (bodyV : List VoiceCall) (mp : List String) (cp : Option (List String)) (m c : String)
    (hperm : memberHas mp cp = true)
    (hnr : (runSlashCalls bodyS2 ⟨false, false⟩).1.replied = false)
    (hre : (runSlashCalls bodyS3 ⟨false, false⟩).1.replied = true) :
    (Effect.logError "error" ∈ (runCommandByInteraction bodyS CmdOutcome.throws).2
      ∧ Effect.beep CommandResult.failure ∈ (runCommandByInteraction bodyS CmdOutcome.throws).2
      ∧ Effect.interactionReply "⚠️" ∈ (runCommandByInteraction bodyS2 CmdOutcome.throws).2
      ∧ countIndicators (runCommandByInteraction bodyS3 CmdOutcome.throws).2
          = countIndicators (runSlashCalls bodyS3 ⟨false, false⟩).2)
    ∧ (Effect.messageReact "⚠️" ∈ (runCommandByMessage mp cp bodyT CmdOutcome.throws).2
      ∧ Effect.beep CommandResult.failure ∈ (runCommandByMessage mp cp bodyT CmdOutcome.throws).2
      ∧ Effect.logError "error" ∈ (runCommandByMessage mp cp bodyT CmdOutcome.throws).2)
    ∧ (Effect.beep CommandResult.failure ∈ (runCommandByAudio mp cp m c bodyV CmdOutcome.throws).2
      ∧ Effect.logError "error" ∈ (runCommandByAudio mp cp m c bodyV CmdOutcome.throws).2
      ∧ countIndicators (runCommandByAudio mp cp m c bodyV CmdOutcome.throws).2
          = countIndicators (runVoiceCalls m c bodyV ⟨false, false⟩).2)
    ∧ (Effect.logInfo "failure" ∈ (runCommandByInteraction bodyS CmdOutcome.retFalse).2
      ∧ Effect.logError "error" ∉ (runCommandByInteraction bodyS CmdOutcome.retFalse).2
      ∧ Effect.logInfo "failure" ∈ (runCommandByMessage mp cp bodyT CmdOutcome.retFalse).2
      ∧ Effect.logError "error" ∉ (runCommandByMessage mp cp bodyT CmdOutcome.retFalse).2
      ∧ Effect.logInfo "failure" ∈ (runCommandByAudio mp cp m c bodyV CmdOutcome.retFalse).2
      ∧ Effect.logError "error" ∉ (runCommandByAudio mp cp m c bodyV CmdOutcome.retFalse).2) := by
  refine ⟨⟨?_, ?_, ?_, ?_⟩, ⟨?_, ?_, ?_⟩, ⟨?_, ?_, ?_⟩, ?_, ?_, ?_, ?_, ?_, ?_⟩
  · by_cases hb : (runSlashCalls bodyS ⟨false, false⟩).1.replied <;>
      simp [runCommandByInteraction, hb]
  · by_cases hb : (runSlashCalls bodyS ⟨false, false⟩).1.replied <;>
      simp [runCommandByInteraction, hb]
  · simp [runCommandByInteraction, hnr, CommandResultEmoji]
  · have htr : (runCommandByInteraction bodyS3 CmdOutcome.throws).2
        = Effect.setTimer :: Effect.executeCommand :: (runSlashCalls bodyS3 ⟨false, false⟩).2
          ++ [Effect.beep CommandResult.failure, Effect.logError "error"] := by
      simp [runCommandByInteraction, hre]
    rw [htr]
    rw [show (Effect.setTimer :: Effect.executeCommand :: (runSlashCalls bodyS3 ⟨false, false⟩).2
        ++ [Effect.beep CommandResult.failure, Effect.logError "error"])
      = [Effect.setTimer, Effect.executeCommand] ++ (runSlashCalls bodyS3 ⟨false, false⟩).2
        ++ [Effect.beep CommandResult.failure, Effect.logError "error"] from rfl]
    simp [countIndicators_append, countIndicators, Effect.isIndicator]
  · simp [runCommandByMessage, hperm, CommandResultEmoji]
  · simp [runCommandByMessage, hperm]
  · simp [runCommandByMessage, hperm]
  · simp [runCommandByAudio, hperm]
  · simp [runCommandByAudio, hperm]
  · simp only [runCommandByAudio, hperm, Bool.not_true, Bool.false_eq_true, if_false]
    rw [show (Effect.executeCommand :: (runVoiceCalls m c bodyV ⟨false, false⟩).2
        ++ [Effect.beep CommandResult.failure, Effect.logError "error"])
      = [Effect.executeCommand] ++ (runVoiceCalls m c bodyV ⟨false, false⟩).2
        ++ [Effect.beep CommandResult.failure, Effect.logError "error"] from rfl]
    simp [countIndicators_append, countIndicators, Effect.isIndicator]
  · simp [runCommandByInteraction, outcomeResult, CommandResult.word]
  · intro hmem
    simp [runCommandByInteraction, outcomeResult] at hmem
    rcases hmem with h | h
    · exact @not_mem_of_not_eventApi (Effect.logError "error") _
        (runSlashCalls_eventApi bodyS ⟨false, false⟩) rfl h
    · exact @not_mem_of_not_eventApi (Effect.logError "error") _
        (slashNotify_eventApi _ _) rfl h
  · simp [runCommandByMessage, hperm, outcomeResult, CommandResult.word]
  · intro hmem
    simp [runCommandByMessage, hperm, outcomeResult] at hmem
    rcases hmem with h | h
    · exact @not_mem_of_not_eventApi (Effect.logError "error") _
        (runTextCalls_eventApi bodyT ⟨false⟩) rfl h
    · exact @not_mem_of_not_eventApi (Effect.logError "error") _
        (textNotify_eventApi _ _) rfl h
  · simp [runCommandByAudio, hperm, outcomeResult, CommandResult.word]
  · intro hmem
    simp [runCommandByAudio, hperm, outcomeResult] at hmem
    rcases hmem with h | h
    · exact @not_mem_of_not_eventApi (Effect.logError "error") _
        (runVoiceCalls_eventApi m c bodyV ⟨false, false⟩) rfl h
    · exact @not_mem_of_not_eventApi (Effect.logError "error") _
        (voiceNotify_eventApi m c _ _) rfl h

/-- C2 witness. -/
theorem command_throw_reporting_witness :
    Effect.logError "error" ∈ (runCommandByInteraction [] CmdOutcome.throws).2
    ∧ Effect.messageReact "⚠️" ∈ (runCommandByMessage [] none [] CmdOutcome.throws).2
    ∧ countIndicators
        (runCommandByInteraction [SlashCall.notify CommandResult.success]
          CmdOutcome.throws).2
      = countIndicators
          (runSlashCalls [SlashCall.notify CommandResult.success] ⟨false, false⟩).2 := by
  have h := command_throw_reporting [] [] [SlashCall.notify CommandResult.success] [] []
    [] none "m1" "cmd" (by decide) (by decide) (by decide)
  exact ⟨h.1.1, h.2.1.1, h.1.2.2.2⟩

/-- C3 counterexample: a voice invocation by a member lacking a declared
required permission produces only a failure beep and a warning log — no
forbidden indicator (🚫) reaches the user — refuting the claim that a
forbidden indicator is produced on the voice path. -/
theorem voice_forbidden_no_indicator :
    (runCommandByAudio [] (some ["ManageMessages"]) "m1" "cmd" [] CmdOutcome.retTrue).2
      = [Effect.beep CommandResult.failure, Effect.logWarn "forbidden"]
    ∧ countIndicators
        (runCommandByAudio [] (some ["ManageMessages"]) "m1" "cmd" [] CmdOutcome.retTrue).2 = 0
    ∧ Effect.executeCommand
        ∉ (runCommandByAudio [] (some ["ManageMessages"]) "m1" "cmd" [] CmdOutcome.retTrue).2 := by
  decide

/-- C3 amended: when the invoking member lacks one of the command's
declared required permissions, the command body is never invoked on
either path; the forbidden indicator (🚫) is produced on the text path,
while the voice path produces only an audible failure cue and a warning
log, with no indicator. -/
theorem forbidden_blocks_execution (mp : List String) (cp : Option (List String))
    (bodyT : List TextCall) (bodyV : List VoiceCall) (m c : String) (oT oV : CmdOutcome)
    (h : memberHas mp cp = false) :
    (Effect.executeCommand ∉ (runCommandByMessage mp cp bodyT oT).2
      ∧ Effect.messageReact "🚫" ∈ (runCommandByMessage mp cp bodyT oT).2
      ∧ Effect.logWarn "forbidden" ∈ (runCommandByMessage mp cp bodyT oT).2)
    ∧ (Effect.executeCommand ∉ (runCommandByAudio mp cp m c bodyV oV).2
      ∧ (runCommandByAudio mp cp m c bodyV oV).2
          = [Effect.beep CommandResult.failure, Effect.logWarn "forbidden"]
      ∧ countIndicators (runCommandByAudio mp cp m c bodyV oV).2 = 0) := by
  refine ⟨⟨?_, ?_, ?_⟩, ⟨?_, ?_, ?_⟩⟩ <;>
    simp [runCommandByMessage, runCommandByAudio, h, CommandResultEmoji,
      countIndicators, Effect.isIndicator, isResultEmoji]

/-- C3 witness. -/
theorem forbidden_blocks_execution_witness :
    Effect.executeCommand
      ∉ (runCommandByMessage [] (some ["Administrator"]) [] CmdOutcome.retTrue).2
    ∧ Effect.messageReact "🚫"
        ∈ (runCommandByMessage [] (some ["Administrator"]) [] CmdOutcome.retTrue).2 := by
  have h := forbidden_blocks_execution [] (some ["Administrator"]) [] [] "m1" "cmd"
    CmdOutcome.retTrue CmdOutcome.retTrue (by decide)
  exact ⟨h.1.1, h.1.2.1⟩

/-- C4 counterexample: a slash command whose body throws leaves the
2.5-time-unit acknowledgment timer pending — the trace starts the timer
but never cancels it — refuting the claim that the timer is canceled
regardless of whether the body returned or threw. -/
theorem slash_throw_timer_not_cleared :
    Effect.setTimer ∈ (runCommandByInteraction [] CmdOutcome.throws).2
    ∧ Effect.clearTimer ∉ (runCommandByInteraction [] CmdOutcome.throws).2 := by
  decide

/-- C4 amended: the acknowledgment timer is canceled exactly once,
immediately after the command body's execution completes, when the body
returns (success or failure); when the body throws or rejects, the
cancel is skipped and the timer is never cleared. -/
theorem slash_timer_cleared_on_return (body : List SlashCall) (o : CmdOutcome)
    (ho : o ≠ CmdOutcome.throws) :
    ((runCommandByInteraction body o).2.count Effect.clearTimer = 1
      ∧ (∃ rest, (runCommandByInteraction body o).2
          = Effect.setTimer :: Effect.executeCommand :: (runSlashCalls body ⟨false, false⟩).2
            ++ Effect.clearTimer :: rest))
    ∧ (runCommandByInteraction body CmdOutcome.throws).2.count Effect.clearTimer = 0 := by
  have hbody : (runSlashCalls body ⟨false, false⟩).2.count Effect.clearTimer = 0 :=
    List.count_eq_zero.mpr
      (@not_mem_of_not_eventApi Effect.clearTimer _
        (runSlashCalls_eventApi body ⟨false, false⟩) rfl)
  have hnote : ∀ r s, ((slashNotify r s).2).count Effect.clearTimer = 0 := by
    intro r s
    exact List.count_eq_zero.mpr
      (@not_mem_of_not_eventApi Effect.clearTimer _ (slashNotify_eventApi r s) rfl)
  refine ⟨⟨?_, ?_⟩, ?_⟩
  · cases o with
    | throws => exact absurd rfl ho
    | retTrue =>
      simp [runCommandByInteraction, List.count_cons, List.count_append, hbody, hnote]
    | retFalse =>
      simp [runCommandByInteraction, List.count_cons, List.count_append, hbody, hnote]
  · cases o with
    | throws => exact absurd rfl ho
    | retTrue =>
      exact ⟨(slashNotify (outcomeResult CmdOutcome.retTrue)
        (runSlashCalls body ⟨false, false⟩).1).2
        ++ [Effect.logInfo (outcomeResult CmdOutcome.retTrue).word],
        by simp [runCommandByInteraction]⟩
    | retFalse =>
      exact ⟨(slashNotify (outcomeResult CmdOutcome.retFalse)
        (runSlashCalls body ⟨false, false⟩).1).2
        ++ [Effect.logInfo (outcomeResult CmdOutcome.retFalse).word],
        by simp [runCommandByInteraction]⟩
  · by_cases hb : (runSlashCalls body ⟨false, false⟩).1.replied <;>
      simp [runCommandByInteraction, hb, List.count_cons, List.count_append, hbody]

/-- C4 witness. -/
theorem slash_timer_cleared_on_return_witness :
    (runCommandByInteraction [] CmdOutcome.retTrue).2.count Effect.clearTimer = 1 :=
  (slash_timer_cleared_on_return [] CmdOutcome.retTrue (by decide)).1.1

/-- C5 counterexample: with a generator that always rejects, two calls
to `generate()` on the same instance invoke the underlying synthesis
work twice and emit the error event twice — refuting that `generate()`
is a no-op in the errored state, that synthesis is performed at most
once, and that the error event is emitted at most once. -/
theorem generate_retries_after_error :
    (generate genFail (generate genFail speechInit).1).1.genCalls = 2
    ∧ (generate genFail (generate genFail speechInit).1).1.emitted
        = [SpeechEvent.error "boom", SpeechEvent.error "boom"]
    ∧ ¬ (generate genFail (generate genFail speechInit).1).1.genCalls ≤ 1 := by
  decide

/-- C5 amended: `generate()` is a no-op exactly when the instance
already holds a response (the ready state): after a successful
generation a second call performs no further work and the instance ends
ready having emitted the ready event exactly once; after a failed
generation no response is stored and the next call invokes the
generator again (a retry), so the errored outcome is not terminal. -/
theorem generate_noop_when_ready
    (genA genB genC : Nat → List GenEffect × Except String TTSResponse)
    (s : SpeechState) (effB effC : List GenEffect) (r : TTSResponse) (e : String)
    (hs : s.response.isSome = true)
    (hb : genB 0 = (effB, Except.ok r))
    (hc : genC 0 = (effC, Except.error e)) :
    (generate genA s = (s, []))
    ∧ ((generate genB (generate genB speechInit).1).1 = (generate genB speechInit).1
      ∧ (generate genB speechInit).1.genCalls = 1
      ∧ (generate genB speechInit).1.emitted = [SpeechEvent.ready]
      ∧ (generate genB speechInit).1.response = some r)
    ∧ ((generate genC speechInit).1.response = none
      ∧ (generate genC speechInit).1.emitted = [SpeechEvent.error e]
      ∧ (generate genC (generate genC speechInit).1).1.genCalls = 2) := by
  refine ⟨?_, ?_, ?_⟩
  · simp [generate, hs]
  · have h1 : generate genB speechInit = (⟨some r, [SpeechEvent.ready], 1⟩, effB) := by
      simp [generate, speechInit, hb]
    rw [h1]
    simp [generate]
  · have h1 : generate genC speechInit = (⟨none, [SpeechEvent.error e], 1⟩, effC) := by
      simp [generate, speechInit, hc]
    rw [h1]
    rcases h2 : genC 1 with ⟨eff2, res2⟩
    refine ⟨rfl, rfl, ?_⟩
    cases res2 <;> simp [generate, h2]

/-- C5 witness. -/
theorem generate_noop_when_ready_witness :
    generate genOk ⟨some ⟨"hi", AudioResource.synthesized 0⟩, [SpeechEvent.ready], 1⟩
      = (⟨some ⟨"hi", AudioResource.synthesized 0⟩, [SpeechEvent.ready], 1⟩, [])
    ∧ (generate genOk speechInit).1.emitted = [SpeechEvent.ready]
    ∧ (generate genFail speechInit).1.response = none := by
  have h := generate_noop_when_ready genOk genOk genFail
    ⟨some ⟨"hi", AudioResource.synthesized 0⟩, [SpeechEvent.ready], 1⟩ [] []
    ⟨"hi", AudioResource.synthesized 0⟩ "boom" rfl rfl rfl
  exact ⟨h.1, h.2.1.2.2.1, h.2.2.1⟩

theorem Datastore.get_set (d : Datastore) (k v : String) :
    (d.set k v).get k = some v := by
  simp [Datastore.get, Datastore.set]

/-- C6: slash-command synchronization is idempotent over content: when
the hash of the serialized command set equals the hash persisted under
key `slash`, the remote registration call is not issued and the store is
unchanged; when it differs, the registration call is issued and the new
hash is persisted, so an immediate re-run with the same command set
issues no further call, while a changed command set (differing hash)
issues the call again and persists the updated hash. -/
theorem slash_sync_idempotent (hashFn : String → String) (ser ser2 : String)
    (d dsame : Datastore)
    (hsame : dsame.get "slash" = some (hashFn ser))
    (hdiff : d.get "slash" ≠ some (hashFn ser))
    (hchange : hashFn ser2 ≠ hashFn ser) :
    (updateSlashCommands (hashFn ser) dsame = (dsame, false))
    ∧ ((updateSlashCommands (hashFn ser) d).2 = true
      ∧ ((updateSlashCommands (hashFn ser) d).1).get "slash" = some (hashFn ser))
    ∧ (updateSlashCommands (hashFn ser) ((updateSlashCommands (hashFn ser) d).1)).2 = false
    ∧ ((updateSlashCommands (hashFn ser2) ((updateSlashCommands (hashFn ser) d).1)).2 = true
      ∧ ((updateSlashCommands (hashFn ser2)
          ((updateSlashCommands (hashFn ser) d).1)).1).get "slash"
            = some (hashFn ser2)) := by
  have hset := Datastore.get_set d "slash" (hashFn ser)
  refine ⟨?_, ⟨?_, ?_⟩, ?_, ?_, ?_⟩
  · simp [updateSlashCommands, hsame]
  · simp [updateSlashCommands, hdiff]
  · simp [updateSlashCommands, hdiff, hset]
  · simp [updateSlashCommands, hdiff, hset]
  · simp [updateSlashCommands, hdiff, hset, Ne.symm hchange]
  · simp [updateSlashCommands, hdiff, hset, Ne.symm hchange, Datastore.get_set]

/-- C6 witness. -/
theorem slash_sync_idempotent_witness :
    updateSlashCommands "a" ⟨[("slash", "a")]⟩ = (⟨[("slash", "a")]⟩, false)
    ∧ (updateSlashCommands "a" ⟨[]⟩).2 = true := by
  have h := slash_sync_idempotent (fun x => x) "a" "b" ⟨[]⟩ ⟨[("slash", "a")]⟩
    (by decide) (by decide) (by decide)
  exact ⟨h.1, h.2.1.1⟩

/-- C7: the lifecycle status only moves forward through the order
unready, preparing, ready, destroying, destroyed, with no
back-transitions; `setup()` in any state other than `unready` and
`destroy()` in any state other than `ready` return immediately with no
status change and no subsystem steps, for both the guild assistant and
the app. -/
theorem lifecycle_monotonic_noop (slash : Bool) (s1 s2 s3 s4 s : Status)
    (h1 : s1 ≠ Status.unready) (h2 : s2 ≠ Status.ready)
    (h3 : s3 ≠ Status.unready) (h4 : s4 ≠ Status.ready) :
    (guildSetup slash s1 = ⟨s1, [], []⟩)
    ∧ (guildDestroy s2 = ⟨s2, [], []⟩)
    ∧ (appSetup s3 = ⟨s3, [], []⟩)
    ∧ (appDestroy s4 = ⟨s4, [], []⟩)
    ∧ List.Chain (fun a b => a.idx < b.idx) s (guildSetup slash s).statuses
    ∧ List.Chain (fun a b => a.idx < b.idx) s (guildDestroy s).statuses
    ∧ List.Chain (fun a b => a.idx < b.idx) s (appSetup s).statuses
    ∧ List.Chain (fun a b => a.idx < b.idx) s (appDestroy s).statuses := by
  refine ⟨?_, ?_, ?_, ?_, ?_, ?_, ?_, ?_⟩
  · cases s1 <;> simp_all [guildSetup]
  · cases s2 <;> simp_all [guildDestroy]
  · cases s3 <;> simp_all [appSetup]
  · cases s4 <;> simp_all [appDestroy]
  · cases s <;> cases slash <;>
      simp [guildSetup, List.chain_cons, List.Chain.nil, Status.idx]
  · cases s <;> simp [guildDestroy, List.chain_cons, List.Chain.nil, Status.idx]
  · cases s <;> simp [appSetup, List.chain_cons, List.Chain.nil, Status.idx]
  · cases s <;> simp [appDestroy, List.chain_cons, List.Chain.nil, Status.idx]

/-- C7 witness. -/
theorem lifecycle_monotonic_noop_witness :
    guildSetup true Status.ready = ⟨Status.ready, [], []⟩
    ∧ List.Chain (fun a b : Status => a.idx < b.idx) Status.unready
        (guildSetup true Status.unready).statuses := by
  have h := lifecycle_monotonic_noop true Status.ready Status.preparing
    Status.destroyed Status.unready Status.unready
    (by decide) (by decide) (by decide) (by decide)
  exact ⟨h.1, h.2.2.2.2.1⟩

/-- C8: for a speech whose request text is the empty string, the
generator built by `createSpeech` never invokes the bound TTS engine and
the instance still reaches the ready state holding the substituted
empty/silent audio resource. -/
theorem empty_text_skips_engine (ttsGen : TTSRequest → Except String TTSResponse)
    (req : TTSRequest) (h : req.text = "") :
    GenEffect.ttsGenerate
      ∉ (generate (fun _ => createSpeechGenerator ttsGen req) speechInit).2
    ∧ (generate (fun _ => createSpeechGenerator ttsGen req) speechInit).1.response
        = some ⟨req.text, AudioResource.empty⟩
    ∧ (generate (fun _ => createSpeechGenerator ttsGen req) speechInit).1.emitted
        = [SpeechEvent.ready] := by
  rcases req with ⟨t⟩
  simp only at h
  subst h
  have hlen : ("" : String).length = 0 := rfl
  simp [generate, createSpeechGenerator, speechInit, createEmptyAudioResource, hlen]

/-- C8 witness. -/
theorem empty_text_skips_engine_witness :
    GenEffect.ttsGenerate
      ∉ (generate (fun _ => createSpeechGenerator ttsOk ⟨""⟩) speechInit).2
    ∧ (generate (fun _ => createSpeechGenerator ttsOk ⟨""⟩) speechInit).1.emitted
        = [SpeechEvent.ready] := by
  have h := empty_text_skips_engine ttsOk ⟨""⟩ rfl
  exact ⟨h.1, h.2.2⟩

/-- C9 counterexample: in the transcription trace the `transcribe` hook
fires strictly after the request has been submitted to the STT engine —
it runs inside the engine-invoked prepare callback — refuting the claim
that the hook fires before the request is submitted to the engine. -/
theorem hook_after_submission :
    ¬ List.indexOf TranscribeEffect.hookTranscribe transcribeTrace
        < List.indexOf TranscribeEffect.submitToEngine transcribeTrace := by
  decide

/-- C9 amended: the `transcribe` hook fires before the selected STT
engine consumes the audio resource — it is installed as the audio's
prepare step and invoked by the engine after the transcription call has
been submitted but before the audio is consumed. -/
theorem hook_before_consumption :
    List.indexOf TranscribeEffect.hookTranscribe transcribeTrace
      < List.indexOf TranscribeEffect.consumeAudio transcribeTrace := by
  decide

end Iwassistant
